import Mathlib

/-!
Shallow embedding of the rep-counting session controller of the Gym Sensor
App (source: `src/app/workout/plan.tsx`, `src/hooks/useBleConnectToSensor.ts`,
`src/unnamed/part_008` (BleConnectionProvider), `src/utils/greeting.ts`
(saveWorkout)), together with theorems checking the natural-language
specification against it.

Modelling conventions:
- JavaScript numbers that only ever hold non-negative integers (rep counts,
  counter values) are `Nat`; where a parsed value can be negative (parseInt)
  we use `Int`.
- React state is explicit: `SessionState` collects the `useState` values and
  the mutable refs of the session screen; handlers become state-transforming
  functions.
- Values read from a closure captured at effect-setup time (rather than from
  a ref or a functional `setState` update) are passed explicitly as a
  `StreamCapture` argument, because they can go stale: the BLE effect at
  plan.tsx:1802 re-runs only when `[showRestDrawer, isAllSetsComplete,
  preConnectedDevice, preConnectedManager, clearPreConnected, reps]` change,
  so the `incrementRep` closure used by the notification/poll callbacks keeps
  the `currentReps` value of the render at which the effect last ran.
  `currentSetIndex`, `sets` and `reps` are also closure-captured, but every
  change to `currentSetIndex` (continueToNextSet) also toggles the effect
  dependency `showRestDrawer`, so for those the captured value always equals
  the live one at callback time and we read them from the live state.
-/

namespace GymSensor

/-! ### Characteristic text parsing (plan.tsx:1877-1884, 1934-1938)

The notification callback decodes the payload to text and parses it with
`text.match(/REPS[:\s]*(\d+)/i)`, falling back to `text.match(/(\d+)/)`.
Since the separator class `[:\s]` and `\d` are disjoint, the JS regex matches
at the first position where a case-insensitive "REPS" is followed by a
(maximal) run of separators and then at least one digit, capturing the
maximal digit run. ASCII whitespace is modelled; the claims only involve
ASCII payloads. -/

def isAsciiDigit (c : Char) : Bool :=
  '0' ≤ c && c ≤ '9'

/-- Characters matched by `\s` in the source regex, restricted to ASCII. -/
def isJsSpace (c : Char) : Bool :=
  c = ' ' || c = '\t' || c = '\n' || c = '\r' || c = '\x0b' || c = '\x0c'

/-- Separator class `[:\s]` of the REPS regex. -/
def isSepChar (c : Char) : Bool :=
  c = ':' || isJsSpace c

/-- Decimal value of a list of digit characters (most significant first). -/
def digitsToNat (l : List Char) : Nat :=
  l.foldl (fun acc c => acc * 10 + (c.toNat - '0'.toNat)) 0

/-- The maximal digit run at the head of `l`, as a value, if non-empty
(the capture group `(\d+)` anchored at the current position). -/
def leadingNumber (l : List Char) : Option Nat :=
  let ds := l.takeWhile isAsciiDigit
  if ds = [] then none else some (digitsToNat ds)

/-- Attempt to match `REPS[:\s]*(\d+)` (case-insensitive) anchored at the
head of `l`, returning the captured value. -/
def repsMatchHere (l : List Char) : Option Nat :=
  match l with
  | a :: b :: c :: d :: rest =>
    if a.toLower = 'r' && b.toLower = 'e' && c.toLower = 'p' && d.toLower = 's' then
      leadingNumber (rest.dropWhile isSepChar)
    else none
  | _ => none

/-- First match of `/REPS[:\s]*(\d+)/i` in the text (leftmost position wins),
as the JS regex engine finds it. -/
def findRepsValue : List Char → Option Nat
  | [] => none
  | c :: cs =>
    match repsMatchHere (c :: cs) with
    | some n => some n
    | none => findRepsValue cs

/-- First match of `/(\d+)/` in the text: the maximal digit run starting at
the first digit character. -/
def findFirstNumber : List Char → Option Nat
  | [] => none
  | c :: cs =>
    if isAsciiDigit c then some (digitsToNat ((c :: cs).takeWhile isAsciiDigit))
    else findFirstNumber cs

/-- Parse a decoded notification/poll text into a rep counter value:
labeled `REPS` pattern first, then the first decimal integer substring,
else nothing (plan.tsx:1877-1884). -/
def parseRepsText (text : String) : Option Nat :=
  match findRepsValue text.data with
  | some n => some n
  | none => findFirstNumber text.data

/-! ### Navigation parameter validation (plan.tsx:1713-1721) -/

/-- `parseInt(s, 10)`: skip leading whitespace, optional sign, then the
maximal run of decimal digits; no digits means NaN (here `none`). -/
def jsParseInt (s : String) : Option Int :=
  let l := s.data.dropWhile isJsSpace
  match l with
  | '+' :: rest => (leadingNumber rest).map (fun n => (n : Int))
  | '-' :: rest => (leadingNumber rest).map (fun n => -(n : Int))
  | rest => (leadingNumber rest).map (fun n => (n : Int))

/-- The `sets` useMemo: `params.sets ? parseInt(params.sets, 10) : 3`, then
`isNaN(parsed) || parsed < 1 ? 3 : Math.min(20, parsed)`. An absent or empty
parameter is falsy and yields the default 3 directly. -/
def sessionSets (param : Option String) : Nat :=
  match param with
  | none => 3
  | some s =>
    if s = "" then 3
    else
      match jsParseInt s with
      | none => 3
      | some v => if v < 1 then 3 else min 20 v.toNat

/-- The `reps` useMemo, identical shape with default 10 and cap 50. -/
def sessionReps (param : Option String) : Nat :=
  match param with
  | none => 10
  | some s =>
    if s = "" then 10
    else
      match jsParseInt s with
      | none => 10
      | some v => if v < 1 then 10 else min 50 v.toNat

/-- Modelled from the spec wording of claim C8 only (not from the source),
for comparison: "sets is the clamp of the parsed input into [1,20]". -/
def specClampSets (v : Int) : Nat :=
  (max 1 (min 20 v)).toNat

/-! ### Session state (plan.tsx:1740-1771) -/

/-- The session screen state relevant to rep/set reconciliation: the
`useState` values `currentSetIndex`, `setRepsCompleted`, `setRestTimes`,
`showRestDrawer`, `restTimer`, `sensorReps` and the diagnostics
`bleNotifyCount`/`bleLastText`/`bleLastError`, plus the mutable ref
`lastSensorRepRef` and the fixed `sets`/`reps` targets. -/
structure SessionState where
  sets : Nat
  reps : Nat
  currentSetIndex : Nat
  setRepsCompleted : List Nat
  setRestTimes : List Nat
  showRestDrawer : Bool
  restTimer : Nat
  lastSensorRep : Nat
  sensorReps : Nat
  bleNotifyCount : Nat
  bleLastText : Option String
  bleLastError : Option String
deriving DecidableEq, Repr

/-- `setRepsCompleted[currentSetIndex] || 0` (plan.tsx:1792). -/
def currentReps (s : SessionState) : Nat :=
  s.setRepsCompleted.getD s.currentSetIndex 0

/-- `setRepsCompleted.every((r) => r >= reps)` (plan.tsx:1794). -/
def isAllSetsComplete (s : SessionState) : Bool :=
  s.setRepsCompleted.all (fun r => s.reps ≤ r)

/-- Initial screen state: all per-set counters zeroed
(plan.tsx:1740-1754, 1765). -/
def initialSession (sets reps : Nat) : SessionState :=
  { sets := sets
    reps := reps
    currentSetIndex := 0
    setRepsCompleted := List.replicate sets 0
    setRestTimes := List.replicate sets 0
    showRestDrawer := false
    restTimer := 0
    lastSensorRep := 0
    sensorReps := 0
    bleNotifyCount := 0
    bleLastText := none
    bleLastError := none }

/-- Values `incrementRep` reads from the render closure in which the BLE
effect (or a button press) captured it: the `currentReps` const and the
`isAllSetsComplete` const of that render. -/
structure StreamCapture where
  currentReps : Nat
  allComplete : Bool
deriving DecidableEq, Repr

/-- The functional update passed to `setSetRepsCompleted`
(plan.tsx:2217-2223): copy, and increment the entry at `idx` only while it
is below `reps`; an out-of-range index leaves the array unchanged. -/
def bumpCompleted (reps idx : Nat) (l : List Nat) : List Nat :=
  match l[idx]? with
  | some v => if v < reps then l.set idx (v + 1) else l
  | none => l

/-- `incrementRep` (plan.tsx:2201-2232). The early return reads the
captured `isAllSetsComplete`; the rest-drawer check reads the captured
`currentReps` const of the closure render (`currentReps + 1 >= reps &&
currentSetIndex < sets - 1`), while the array update is functional and
therefore always sees the live array. -/
def incrementRep (cap : StreamCapture) (s : SessionState) : SessionState :=
  if cap.allComplete then s
  else
    let s1 := { s with
      setRepsCompleted := bumpCompleted s.reps s.currentSetIndex s.setRepsCompleted }
    if s.reps ≤ cap.currentReps + 1 ∧ s.currentSetIndex + 1 < s.sets then
      { s1 with showRestDrawer := true, lastSensorRep := 0, sensorReps := 0 }
    else s1

/-- The sensor-counter merge rule shared by the notification callback
(plan.tsx:1885-1898) and the fallback poll (plan.tsx:1938-1951): given a
parsed value `v`, set `sensorReps`, read the fresh `currentRepsRef` and
`showRestDrawerRef`, then either bulk-add `min(delta, reps - currentReps)`
via repeated `incrementRep` calls when `delta > 0`, or take the first-rep
branch, or do nothing. -/
def applyCounterValue (cap : StreamCapture) (v : Nat) (s : SessionState) : SessionState :=
  let s0 := { s with sensorReps := v }
  let currentRepsNow := currentReps s0
  let inRestPeriod := s0.showRestDrawer
  if s0.lastSensorRep < v ∧ currentRepsNow < s0.reps ∧ inRestPeriod = false then
    let repsToAdd := min (v - s0.lastSensorRep) (s0.reps - currentRepsNow)
    let s1 := (incrementRep cap)^[repsToAdd] s0
    { s1 with lastSensorRep := v }
  else if 0 < v ∧ s0.lastSensorRep = 0 ∧ currentRepsNow < s0.reps ∧ inRestPeriod = false then
    { incrementRep cap s0 with lastSensorRep := v }
  else s0

/-- The same merge rule with the first-rep fallback branch removed; used to
state that the two-branch rule is extensionally equal to its delta branch
alone (the fallback is unreachable). -/
def applyCounterValueDeltaOnly (cap : StreamCapture) (v : Nat) (s : SessionState) :
    SessionState :=
  let s0 := { s with sensorReps := v }
  let currentRepsNow := currentReps s0
  let inRestPeriod := s0.showRestDrawer
  if s0.lastSensorRep < v ∧ currentRepsNow < s0.reps ∧ inRestPeriod = false then
    let repsToAdd := min (v - s0.lastSensorRep) (s0.reps - currentRepsNow)
    let s1 := (incrementRep cap)^[repsToAdd] s0
    { s1 with lastSensorRep := v }
  else s0

/-- The body of the notification callback on a successfully decoded text
(plan.tsx:1873-1898): record diagnostics, parse, and apply the counter value
when one parses; a text with no parsed value changes nothing further and in
particular sets no error. -/
def handleNotificationText (cap : StreamCapture) (text : String) (s : SessionState) :
    SessionState :=
  let s0 := { s with
    bleLastText := some text
    bleNotifyCount := s.bleNotifyCount + 1 }
  match parseRepsText text with
  | some v => applyCounterValue cap v s0
  | none => s0

/-- `continueToNextSet` (plan.tsx:2234-2247): record the elapsed rest time
for the completed set, close the drawer, advance the set index and reset the
sensor baseline. -/
def continueToNextSet (s : SessionState) : SessionState :=
  { s with
    setRestTimes := s.setRestTimes.set s.currentSetIndex s.restTimer
    showRestDrawer := false
    currentSetIndex := s.currentSetIndex + 1
    lastSensorRep := 0
    sensorReps := 0 }

/-! ### Connection handoff store (src/unnamed/part_008) -/

/-- Stand-ins for the react-native-ble-plx `Device` and `BleManager` handles
held by the provider; only their identity matters here. -/
abbrev DeviceHandle := Nat

abbrev ManagerHandle := Nat

/-- The `BleConnectionProvider` state (part_008:4-23). -/
structure BleConnectionState where
  device : Option DeviceHandle
  manager : Option ManagerHandle
  machine : Option String
  sensorName : Option String
  sensorMac : Option String
deriving DecidableEq, Repr

/-- `initialState` of the provider (part_008:17-23). -/
def emptyConnectionState : BleConnectionState :=
  { device := none, manager := none, machine := none, sensorName := none, sensorMac := none }

/-- `setPreConnected` (part_008:30-35): publish, overwriting any prior
record (last write wins, single slot). -/
def setPreConnected (d : DeviceHandle) (m : ManagerHandle)
    (machine sensorName sensorMac : String) (_s : BleConnectionState) :
    BleConnectionState :=
  { device := some d, manager := some m, machine := some machine,
    sensorName := some sensorName, sensorMac := some sensorMac }

/-- `clearPreConnected` (part_008:37-39). -/
def clearPreConnected (_s : BleConnectionState) : BleConnectionState :=
  emptyConnectionState

/-- The session screen consumption of the handoff (plan.tsx:1832-1839): if
both device and manager are present, use them and immediately
`clearPreConnected()`; otherwise nothing is consumed and the store is left
as is. Returns the consumed pair and the store state afterwards. -/
def consumePreConnected (s : BleConnectionState) :
    Option (DeviceHandle × ManagerHandle) × BleConnectionState :=
  match s.device, s.manager with
  | some d, some m => (some (d, m), emptyConnectionState)
  | _, _ => (none, s)

/-! ### Discovery matching (useBleConnectToSensor.ts:105-116) -/

/-- A peripheral as delivered by the scan callback: `d?.name`,
`d?.localName`, `d?.id`. -/
structure DiscoveredPeripheral where
  name : Option String
  localName : Option String
  id : String
deriving DecidableEq, Repr

/-- JS `a || b` for an optional string against a string default:
`none` and the empty string are falsy. -/
def jsOrString (a : Option String) (b : String) : String :=
  match a with
  | some s => if s = "" then b else s
  | none => b

/-- `const deviceName = d?.name || d?.localName || ""`. -/
def deviceDisplayName (d : DiscoveredPeripheral) : String :=
  jsOrString d.name (jsOrString d.localName "")

/-- JS `toLowerCase()` restricted to per-character lowering (identical to
the standard library string lowering, written out so that it evaluates by
kernel reduction; coincides with JS on ASCII). -/
def lowerAscii (s : String) : String :=
  ⟨s.data.map Char.toLower⟩

/-- `matchesMac` (useBleConnectToSensor.ts:107-109): requires a target MAC
and compares the discovered id exactly or lowercased. -/
def matchesMac (targetMac : Option String) (d : DiscoveredPeripheral) : Bool :=
  match targetMac with
  | some mac => d.id == mac || lowerAscii d.id == lowerAscii mac
  | none => false

/-- `matchesName` (useBleConnectToSensor.ts:110-113): only applies when no
target MAC is set, and compares `deviceName` to the target exactly or
lowercased. -/
def matchesName (targetMac : Option String) (targetName : String)
    (d : DiscoveredPeripheral) : Bool :=
  match targetMac with
  | some _ => false
  | none =>
    deviceDisplayName d == targetName ||
      lowerAscii (deviceDisplayName d) == lowerAscii targetName

/-- `const matches = d && (matchesMac || matchesName)`
(useBleConnectToSensor.ts:114). -/
def matchesTarget (targetMac : Option String) (targetName : String)
    (d : DiscoveredPeripheral) : Bool :=
  matchesMac targetMac d || matchesName targetMac targetName d

/-- Modelled from the spec wording of claim C7 only (not from the source),
for comparison: match by hardware address if the target specifies one, else
by a case-sensitive exact match on the primary name or the local name. -/
def specMatchesTarget (targetMac : Option String) (targetName : String)
    (d : DiscoveredPeripheral) : Bool :=
  match targetMac with
  | some mac => d.id == mac
  | none => d.name == some targetName || d.localName == some targetName

/-! ### Screen-level event model (render/effect loop of the Session screen)

To reason about the save-on-complete effect (plan.tsx:2155-2176) across
arbitrary interleavings of sensor samples, manual taps, rest continues and
re-renders, we model the React commit loop explicitly: an external event
fires a handler (updating state), then effects whose dependency arrays
changed re-run. The session runs on one UI thread, so events are processed
atomically in sequence (spec section 5). -/

/-- The dependency array of the save-on-complete effect
(plan.tsx:2176): `[isAllSetsComplete, machineName, sets, reps, userId,
setRepsCompleted, setRestTimes]`. `machineName`, `sets` and `reps` are
fixed for the screen's lifetime, so only the varying components are kept.
React compares the array entries with `Object.is`; for the lists this is
reference equality, which coincides with value equality here because a
`setSetRepsCompleted`/`setSetRestTimes` call is only reachable when it also
changes the value (see the invariant proofs below). -/
structure SaveDeps where
  allComplete : Bool
  userId : Option String
  setRepsCompleted : List Nat
  setRestTimes : List Nat
deriving DecidableEq, Repr

def saveDepsOf (s : SessionState) (userId : Option String) : SaveDeps :=
  { allComplete := isAllSetsComplete s
    userId := userId
    setRepsCompleted := s.setRepsCompleted
    setRestTimes := s.setRestTimes }

/-- The varying dependencies of the BLE monitoring effect
(plan.tsx:1980-1987): `showRestDrawer` and `isAllSetsComplete` (the device,
manager and `reps` entries are fixed during a streaming period). -/
structure BleDeps where
  showRestDrawer : Bool
  allComplete : Bool
deriving DecidableEq, Repr

def bleDepsOf (s : SessionState) : BleDeps :=
  { showRestDrawer := s.showRestDrawer, allComplete := isAllSetsComplete s }

/-- Full screen state: the session state, the asynchronously fetched user
id, the number of `saveWorkout` invocations performed so far, the dependency
snapshots against which React decides whether each effect re-runs, and the
closure values currently captured by the sensor callbacks. -/
structure AppState where
  session : SessionState
  userId : Option String
  savedCount : Nat
  prevSaveDeps : SaveDeps
  prevBleDeps : BleDeps
  cap : StreamCapture
deriving DecidableEq, Repr

/-- External events the session screen reacts to. -/
inductive SessionEvent where
  | sensorText (text : String)
  | tapIncrement
  | pressContinue
  | restTick
  | userIdArrives (uid : String)
  | rerender
deriving DecidableEq, Repr

/-- The handler run by each event:
- `sensorText`: the notification/poll callback, using the captured closure
  values of the last BLE effect run (plan.tsx:1860-1902, 1926-1952);
- `tapIncrement`: the `+1` button, whose `onPress` closure is from the
  latest render, hence fresh captured values (plan.tsx:2426-2428);
- `pressContinue`: the rest-drawer Continue button, only rendered while the
  drawer is shown (plan.tsx:2473-2474);
- `restTick`: the 1Hz rest timer while the drawer is shown
  (plan.tsx:2179-2199);
- `userIdArrives`: resolution of the one `supabase.auth.getUser()` call made
  on mount (plan.tsx:1774-1790);
- `rerender`: a render with no state change. -/
def applyEvent (e : SessionEvent) (a : AppState) : AppState :=
  match e with
  | .sensorText t => { a with session := handleNotificationText a.cap t a.session }
  | .tapIncrement =>
    { a with session :=
        incrementRep ⟨currentReps a.session, isAllSetsComplete a.session⟩ a.session }
  | .pressContinue =>
    if a.session.showRestDrawer then { a with session := continueToNextSet a.session } else a
  | .restTick =>
    if a.session.showRestDrawer then
      { a with session := { a.session with restTimer := a.session.restTimer + 1 } }
    else a
  | .userIdArrives uid => if a.userId = none then { a with userId := some uid } else a
  | .rerender => a

/-- The save-on-complete effect (plan.tsx:2155-2176): re-runs exactly when
its dependency snapshot changed, and calls `saveWorkout` when it runs with
`isAllSetsComplete && userId`. -/
def runSaveEffect (a : AppState) : AppState :=
  if saveDepsOf a.session a.userId ≠ a.prevSaveDeps then
    { a with
      prevSaveDeps := saveDepsOf a.session a.userId
      savedCount :=
        if isAllSetsComplete a.session ∧ a.userId.isSome then a.savedCount + 1
        else a.savedCount }
  else a

/-- The BLE monitoring effect (plan.tsx:1802-1987): on re-run it tears down
and re-registers the sensor callbacks, whose closures then capture the
`currentReps`/`isAllSetsComplete` values of the current render. -/
def runBleEffect (a : AppState) : AppState :=
  if bleDepsOf a.session ≠ a.prevBleDeps then
    { a with
      prevBleDeps := bleDepsOf a.session
      cap := { currentReps := currentReps a.session
               allComplete := isAllSetsComplete a.session } }
  else a

/-- The effect pass after a commit: each effect re-runs exactly when its
dependency snapshot changed (neither effect changes the other's
dependencies, so the order is immaterial). -/
def runEffects (a : AppState) : AppState :=
  runBleEffect (runSaveEffect a)

def step (a : AppState) (e : SessionEvent) : AppState :=
  runEffects (applyEvent e a)

def run (a : AppState) (es : List SessionEvent) : AppState :=
  es.foldl step a

/-- The screen right after mount: fresh session state, no user id yet, no
save performed, effects having run once (on mount both effects run; the save
effect sees `isAllSetsComplete = false`, so nothing is saved). -/
def initialApp (sets reps : Nat) : AppState :=
  let s := initialSession sets reps
  { session := s
    userId := none
    savedCount := 0
    prevSaveDeps := saveDepsOf s none
    prevBleDeps := bleDepsOf s
    cap := { currentReps := currentReps s, allComplete := isAllSetsComplete s } }

/-- Structural invariants of the session screen state, established by the
initial state and preserved by every handler: fixed targets of at least one
set/rep, rep and rest arrays of length `sets`, a set index in range, rep
entries clamped to `[0, targetReps]`, sets beyond the current one untouched,
and the rest drawer only ever shown before a non-final set boundary. -/
def GoodSession (s : SessionState) : Prop :=
  1 ≤ s.reps ∧ 1 ≤ s.sets ∧
  s.setRepsCompleted.length = s.sets ∧
  s.setRestTimes.length = s.sets ∧
  s.currentSetIndex < s.sets ∧
  (∀ j, s.setRepsCompleted.getD j 0 ≤ s.reps) ∧
  (∀ j, s.currentSetIndex < j → s.setRepsCompleted.getD j 0 = 0) ∧
  (s.showRestDrawer = true → s.currentSetIndex + 1 < s.sets)

/-- Invariants of the whole screen: the session invariants, soundness of
the closure capture (a captured `isAllSetsComplete = true` only ever
witnesses an actually complete session), dependency snapshots that agree
with the committed state (React re-runs an effect exactly when they
differ), and the save-count characterization: `saveWorkout` has run exactly
once if the session is complete with a known user and never otherwise. -/
def GoodApp (a : AppState) : Prop :=
  GoodSession a.session ∧
  (a.cap.allComplete = true → isAllSetsComplete a.session = true) ∧
  a.prevSaveDeps = saveDepsOf a.session a.userId ∧
  a.prevBleDeps = bleDepsOf a.session ∧
  a.savedCount =
    (if isAllSetsComplete a.session = true ∧ a.userId.isSome = true then 1 else 0)

/-! ### Helper lemmas: the rep array update -/

theorem bumpCompleted_length (r i : Nat) (l : List Nat) :
    (bumpCompleted r i l).length = l.length := by
  unfold bumpCompleted
  cases h : l[i]? with
  | none => rfl
  | some v =>
    by_cases hv : v < r
    · simp [hv]
    · simp [hv]

theorem bumpCompleted_getD_ne (r i j : Nat) (l : List Nat) (hij : j ≠ i) :
    (bumpCompleted r i l).getD j 0 = l.getD j 0 := by
  unfold bumpCompleted
  cases h : l[i]? with
  | none => rfl
  | some v =>
    by_cases hv : v < r
    · simp only [hv, if_true]
      simp [List.getD, List.getElem?_set_ne (Ne.symm hij)]
    · simp [hv]

theorem bumpCompleted_getD_self (r i : Nat) (l : List Nat) (hi : i < l.length) :
    (bumpCompleted r i l).getD i 0 =
      if l.getD i 0 < r then l.getD i 0 + 1 else l.getD i 0 := by
  unfold bumpCompleted
  have h : l[i]? = some l[i] := List.getElem?_eq_getElem hi
  rw [h]
  by_cases hv : l[i] < r
  · simp [List.getD, h, hv, List.getElem?_set_eq_of_lt _ hi]
  · simp [List.getD, h, hv]

theorem bumpCompleted_mono (r i j : Nat) (l : List Nat) :
    l.getD j 0 ≤ (bumpCompleted r i l).getD j 0 := by
  by_cases hij : j = i
  · subst hij
    by_cases hj : j < l.length
    · rw [bumpCompleted_getD_self r j l hj]
      split <;> omega
    · unfold bumpCompleted
      have : l[j]? = none := List.getElem?_eq_none (by omega)
      rw [this]
  · rw [bumpCompleted_getD_ne r i j l hij]

theorem bumpCompleted_le (r i : Nat) (l : List Nat)
    (hall : ∀ j, l.getD j 0 ≤ r) (j : Nat) :
    (bumpCompleted r i l).getD j 0 ≤ r := by
  by_cases hij : j = i
  · subst hij
    by_cases hj : j < l.length
    · rw [bumpCompleted_getD_self r j l hj]
      have := hall j
      split <;> omega
    · unfold bumpCompleted
      have : l[j]? = none := List.getElem?_eq_none (by omega)
      rw [this]
      exact hall j
  · rw [bumpCompleted_getD_ne r i j l hij]
    exact hall j

theorem bumpCompleted_of_ge (r i : Nat) (l : List Nat) (h : r ≤ l.getD i 0)
    (hi : i < l.length) : bumpCompleted r i l = l := by
  unfold bumpCompleted
  have hsome : l[i]? = some l[i] := List.getElem?_eq_getElem hi
  rw [hsome]
  have hD : l.getD i 0 = l[i] := by simp [List.getD, hsome]
  have : ¬ l[i] < r := by omega
  simp [this]

/-! ### Helper lemmas: incrementRep -/

theorem incrementRep_setRepsCompleted (cap : StreamCapture) (s : SessionState) :
    (incrementRep cap s).setRepsCompleted =
      if cap.allComplete then s.setRepsCompleted
      else bumpCompleted s.reps s.currentSetIndex s.setRepsCompleted := by
  unfold incrementRep
  by_cases hc : cap.allComplete
  · simp [hc]
  · simp only [hc, Bool.false_eq_true, if_false]
    split <;> rfl

theorem incrementRep_frame (cap : StreamCapture) (s : SessionState) :
    (incrementRep cap s).sets = s.sets ∧
    (incrementRep cap s).reps = s.reps ∧
    (incrementRep cap s).currentSetIndex = s.currentSetIndex ∧
    (incrementRep cap s).setRestTimes = s.setRestTimes ∧
    (incrementRep cap s).restTimer = s.restTimer ∧
    (incrementRep cap s).bleNotifyCount = s.bleNotifyCount ∧
    (incrementRep cap s).bleLastText = s.bleLastText ∧
    (incrementRep cap s).bleLastError = s.bleLastError := by
  unfold incrementRep
  split
  · exact ⟨rfl, rfl, rfl, rfl, rfl, rfl, rfl, rfl⟩
  · split <;> exact ⟨rfl, rfl, rfl, rfl, rfl, rfl, rfl, rfl⟩

theorem incrementRep_showRestDrawer (cap : StreamCapture) (s : SessionState) :
    (incrementRep cap s).showRestDrawer =
      if cap.allComplete = false ∧ s.reps ≤ cap.currentReps + 1 ∧
          s.currentSetIndex + 1 < s.sets then true
      else s.showRestDrawer := by
  unfold incrementRep
  by_cases hc : cap.allComplete
  · simp [hc]
  · simp only [hc, if_false]
    by_cases hd : s.reps ≤ cap.currentReps + 1 ∧ s.currentSetIndex + 1 < s.sets
    · simp [hd]
    · simp [hd]

theorem incrementRep_of_allComplete (cap : StreamCapture) (s : SessionState)
    (h : cap.allComplete = true) : incrementRep cap s = s := by
  unfold incrementRep
  simp [h]

theorem incrementRep_lastSensorRep (cap : StreamCapture) (s : SessionState) :
    (incrementRep cap s).lastSensorRep =
      if cap.allComplete = false ∧ s.reps ≤ cap.currentReps + 1 ∧
          s.currentSetIndex + 1 < s.sets then 0
      else s.lastSensorRep := by
  unfold incrementRep
  by_cases hc : cap.allComplete
  · simp [hc]
  · simp only [hc, Bool.false_eq_true, if_false]
    by_cases hd : s.reps ≤ cap.currentReps + 1 ∧ s.currentSetIndex + 1 < s.sets
    · simp [hd]
    · simp [hd]

theorem incrementRep_sensorReps (cap : StreamCapture) (s : SessionState) :
    (incrementRep cap s).sensorReps =
      if cap.allComplete = false ∧ s.reps ≤ cap.currentReps + 1 ∧
          s.currentSetIndex + 1 < s.sets then 0
      else s.sensorReps := by
  unfold incrementRep
  by_cases hc : cap.allComplete
  · simp [hc]
  · simp only [hc, Bool.false_eq_true, if_false]
    by_cases hd : s.reps ≤ cap.currentReps + 1 ∧ s.currentSetIndex + 1 < s.sets
    · simp [hd]
    · simp [hd]

theorem isAllSetsComplete_iff (s : SessionState) :
    isAllSetsComplete s = true ↔
      ∀ j, j < s.setRepsCompleted.length → s.reps ≤ s.setRepsCompleted.getD j 0 := by
  unfold isAllSetsComplete
  rw [List.all_eq_true]
  constructor
  · intro h j hj
    have hm : s.setRepsCompleted[j] ∈ s.setRepsCompleted := List.getElem_mem hj
    have := h _ hm
    simp only [decide_eq_true_eq] at this
    simpa [List.getD, List.getElem?_eq_getElem hj] using this
  · intro h x hx
    obtain ⟨j, hj, rfl⟩ := List.mem_iff_getElem.mp hx
    have := h j hj
    simp only [decide_eq_true_eq]
    simpa [List.getD, List.getElem?_eq_getElem hj] using this

/-! ### Helper lemmas: iterated incrementRep (the bulk-add loop) -/

theorem iterate_incrementRep_frame (cap : StreamCapture) (n : Nat) (s : SessionState) :
    ((incrementRep cap)^[n] s).sets = s.sets ∧
    ((incrementRep cap)^[n] s).reps = s.reps ∧
    ((incrementRep cap)^[n] s).currentSetIndex = s.currentSetIndex ∧
    ((incrementRep cap)^[n] s).setRestTimes = s.setRestTimes ∧
    ((incrementRep cap)^[n] s).restTimer = s.restTimer ∧
    ((incrementRep cap)^[n] s).bleNotifyCount = s.bleNotifyCount ∧
    ((incrementRep cap)^[n] s).bleLastText = s.bleLastText ∧
    ((incrementRep cap)^[n] s).bleLastError = s.bleLastError := by
  induction n with
  | zero => simp
  | succ n ih =>
    rw [Function.iterate_succ_apply']
    have hf := incrementRep_frame cap ((incrementRep cap)^[n] s)
    exact ⟨hf.1.trans ih.1, hf.2.1.trans ih.2.1, hf.2.2.1.trans ih.2.2.1,
      hf.2.2.2.1.trans ih.2.2.2.1, hf.2.2.2.2.1.trans ih.2.2.2.2.1,
      hf.2.2.2.2.2.1.trans ih.2.2.2.2.2.1, hf.2.2.2.2.2.2.1.trans ih.2.2.2.2.2.2.1,
      hf.2.2.2.2.2.2.2.trans ih.2.2.2.2.2.2.2⟩

theorem incrementRep_length (cap : StreamCapture) (s : SessionState) :
    (incrementRep cap s).setRepsCompleted.length = s.setRepsCompleted.length := by
  rw [incrementRep_setRepsCompleted]
  split
  · rfl
  · exact bumpCompleted_length _ _ _

theorem iterate_incrementRep_length (cap : StreamCapture) (n : Nat) (s : SessionState) :
    ((incrementRep cap)^[n] s).setRepsCompleted.length = s.setRepsCompleted.length := by
  induction n with
  | zero => simp
  | succ n ih =>
    rw [Function.iterate_succ_apply']
    exact (incrementRep_length _ _).trans ih

theorem incrementRep_getD_ne (cap : StreamCapture) (s : SessionState) (j : Nat)
    (hj : j ≠ s.currentSetIndex) :
    (incrementRep cap s).setRepsCompleted.getD j 0 = s.setRepsCompleted.getD j 0 := by
  rw [incrementRep_setRepsCompleted]
  split
  · rfl
  · exact bumpCompleted_getD_ne _ _ _ _ hj

theorem iterate_incrementRep_getD_ne (cap : StreamCapture) (n : Nat) (s : SessionState)
    (j : Nat) (hj : j ≠ s.currentSetIndex) :
    ((incrementRep cap)^[n] s).setRepsCompleted.getD j 0 =
      s.setRepsCompleted.getD j 0 := by
  induction n with
  | zero => simp
  | succ n ih =>
    rw [Function.iterate_succ_apply']
    have hidx := (iterate_incrementRep_frame cap n s).2.2.1
    rw [incrementRep_getD_ne _ _ _ (by rw [hidx]; exact hj)]
    exact ih

theorem iterate_incrementRep_getD_self (cap : StreamCapture) (n : Nat) (s : SessionState)
    (hc : cap.allComplete = false)
    (hi : s.currentSetIndex < s.setRepsCompleted.length)
    (hn : s.setRepsCompleted.getD s.currentSetIndex 0 + n ≤ s.reps) :
    ((incrementRep cap)^[n] s).setRepsCompleted.getD s.currentSetIndex 0 =
      s.setRepsCompleted.getD s.currentSetIndex 0 + n := by
  induction n with
  | zero => simp
  | succ n ih =>
    rw [Function.iterate_succ_apply']
    have ihv := ih (by omega)
    have hidx := (iterate_incrementRep_frame cap n s).2.2.1
    have hreps := (iterate_incrementRep_frame cap n s).2.1
    have hlen := iterate_incrementRep_length cap n s
    rw [incrementRep_setRepsCompleted, hc]
    simp only [Bool.false_eq_true, if_false]
    rw [hidx, hreps]
    rw [bumpCompleted_getD_self _ _ _ (by rw [hlen]; exact hi)]
    rw [ihv]
    have : s.setRepsCompleted.getD s.currentSetIndex 0 + n < s.reps := by omega
    rw [if_pos this]
    omega

theorem iterate_incrementRep_le (cap : StreamCapture) (n : Nat) (s : SessionState)
    (hall : ∀ j, s.setRepsCompleted.getD j 0 ≤ s.reps) :
    ∀ j, ((incrementRep cap)^[n] s).setRepsCompleted.getD j 0 ≤ s.reps := by
  induction n with
  | zero => exact hall
  | succ n ih =>
    intro j
    rw [Function.iterate_succ_apply']
    have hreps := (iterate_incrementRep_frame cap n s).2.1
    rw [incrementRep_setRepsCompleted]
    split
    · exact ih j
    · rw [hreps]
      exact bumpCompleted_le _ _ _ ih j

theorem iterate_incrementRep_mono (cap : StreamCapture) (n : Nat) (s : SessionState)
    (j : Nat) :
    s.setRepsCompleted.getD j 0 ≤ ((incrementRep cap)^[n] s).setRepsCompleted.getD j 0 := by
  induction n with
  | zero => simp
  | succ n ih =>
    rw [Function.iterate_succ_apply']
    refine le_trans ih ?_
    rw [incrementRep_setRepsCompleted]
    split
    · exact le_refl _
    · exact bumpCompleted_mono _ _ _ _

/-! ### Helper lemmas: the sensor merge rule -/

theorem currentReps_set_sensorReps (s : SessionState) (v : Nat) :
    currentReps { s with sensorReps := v } = currentReps s := rfl

/-- When the delta guard fails, the fallback first-rep guard fails too, so
only `sensorReps` is updated. -/
theorem applyCounterValue_of_not_inc (cap : StreamCapture) (v : Nat) (s : SessionState)
    (h : ¬(s.lastSensorRep < v ∧ currentReps s < s.reps ∧ s.showRestDrawer = false)) :
    applyCounterValue cap v s = { s with sensorReps := v } := by
  have h2 : ¬(0 < v ∧ s.lastSensorRep = 0 ∧ currentReps s < s.reps ∧
      s.showRestDrawer = false) := by
    rintro ⟨hv, h0, hc, hd⟩
    exact h ⟨by omega, hc, hd⟩
  simp only [applyCounterValue, currentReps_set_sensorReps]
  rw [if_neg h, if_neg h2]

theorem applyCounterValue_of_rest (cap : StreamCapture) (v : Nat) (s : SessionState)
    (h : s.showRestDrawer = true) :
    applyCounterValue cap v s = { s with sensorReps := v } :=
  applyCounterValue_of_not_inc cap v s (by simp [h])

/-- When the delta guard holds, the value is merged through the bulk loop. -/
theorem applyCounterValue_of_inc (cap : StreamCapture) (v : Nat) (s : SessionState)
    (h1 : s.lastSensorRep < v) (h2 : currentReps s < s.reps)
    (h3 : s.showRestDrawer = false) :
    applyCounterValue cap v s =
      { (incrementRep cap)^[min (v - s.lastSensorRep) (s.reps - currentReps s)]
          { s with sensorReps := v } with lastSensorRep := v } := by
  simp only [applyCounterValue, currentReps_set_sensorReps]
  rw [if_pos ⟨h1, h2, h3⟩]

theorem applyCounterValue_adds (cap : StreamCapture) (v : Nat) (s : SessionState)
    (h1 : s.lastSensorRep < v) (h2 : currentReps s < s.reps)
    (h3 : s.showRestDrawer = false) (hc : cap.allComplete = false)
    (hi : s.currentSetIndex < s.setRepsCompleted.length) :
    currentReps (applyCounterValue cap v s) =
      currentReps s + min (v - s.lastSensorRep) (s.reps - currentReps s) := by
  rw [applyCounterValue_of_inc cap v s h1 h2 h3]
  set k := min (v - s.lastSensorRep) (s.reps - currentReps s) with hk
  set s0 : SessionState := { s with sensorReps := v } with hs0
  have hidx : ((incrementRep cap)^[k] s0).currentSetIndex = s0.currentSetIndex :=
    (iterate_incrementRep_frame cap k s0).2.2.1
  show ((incrementRep cap)^[k] s0).setRepsCompleted.getD
      ((incrementRep cap)^[k] s0).currentSetIndex 0 = currentReps s + k
  rw [hidx]
  have hcur : currentReps s0 = currentReps s := rfl
  have : s0.setRepsCompleted.getD s0.currentSetIndex 0 + k ≤ s0.reps := by
    have : k ≤ s.reps - currentReps s := min_le_right _ _
    show currentReps s0 + k ≤ s.reps
    rw [hcur]
    omega
  rw [iterate_incrementRep_getD_self cap k s0 hc hi this]
  rfl

theorem applyCounterValue_le (cap : StreamCapture) (v : Nat) (s : SessionState)
    (hall : ∀ j, s.setRepsCompleted.getD j 0 ≤ s.reps) :
    ∀ j, (applyCounterValue cap v s).setRepsCompleted.getD j 0 ≤ s.reps := by
  intro j
  by_cases h : s.lastSensorRep < v ∧ currentReps s < s.reps ∧ s.showRestDrawer = false
  · rw [applyCounterValue_of_inc cap v s h.1 h.2.1 h.2.2]
    exact iterate_incrementRep_le cap _ { s with sensorReps := v } hall j
  · rw [applyCounterValue_of_not_inc cap v s h]
    exact hall j

theorem applyCounterValue_mono (cap : StreamCapture) (v : Nat) (s : SessionState)
    (j : Nat) :
    s.setRepsCompleted.getD j 0 ≤ (applyCounterValue cap v s).setRepsCompleted.getD j 0 := by
  by_cases h : s.lastSensorRep < v ∧ currentReps s < s.reps ∧ s.showRestDrawer = false
  · rw [applyCounterValue_of_inc cap v s h.1 h.2.1 h.2.2]
    exact iterate_incrementRep_mono cap _ { s with sensorReps := v } j
  · rw [applyCounterValue_of_not_inc cap v s h]

theorem applyCounterValue_frame (cap : StreamCapture) (v : Nat) (s : SessionState) :
    (applyCounterValue cap v s).sets = s.sets ∧
    (applyCounterValue cap v s).reps = s.reps ∧
    (applyCounterValue cap v s).currentSetIndex = s.currentSetIndex ∧
    (applyCounterValue cap v s).setRestTimes = s.setRestTimes ∧
    (applyCounterValue cap v s).restTimer = s.restTimer ∧
    (applyCounterValue cap v s).bleNotifyCount = s.bleNotifyCount ∧
    (applyCounterValue cap v s).bleLastText = s.bleLastText ∧
    (applyCounterValue cap v s).bleLastError = s.bleLastError := by
  by_cases h : s.lastSensorRep < v ∧ currentReps s < s.reps ∧ s.showRestDrawer = false
  · rw [applyCounterValue_of_inc cap v s h.1 h.2.1 h.2.2]
    have hf := iterate_incrementRep_frame cap
      (min (v - s.lastSensorRep) (s.reps - currentReps s)) { s with sensorReps := v }
    exact ⟨hf.1, hf.2.1, hf.2.2.1, hf.2.2.2.1, hf.2.2.2.2.1, hf.2.2.2.2.2.1,
      hf.2.2.2.2.2.2.1, hf.2.2.2.2.2.2.2⟩
  · rw [applyCounterValue_of_not_inc cap v s h]
    exact ⟨rfl, rfl, rfl, rfl, rfl, rfl, rfl, rfl⟩

theorem applyCounterValueDeltaOnly_of_inc (cap : StreamCapture) (v : Nat)
    (s : SessionState) (h1 : s.lastSensorRep < v) (h2 : currentReps s < s.reps)
    (h3 : s.showRestDrawer = false) :
    applyCounterValueDeltaOnly cap v s =
      { (incrementRep cap)^[min (v - s.lastSensorRep) (s.reps - currentReps s)]
          { s with sensorReps := v } with lastSensorRep := v } := by
  simp only [applyCounterValueDeltaOnly, currentReps_set_sensorReps]
  rw [if_pos ⟨h1, h2, h3⟩]

theorem applyCounterValueDeltaOnly_of_not_inc (cap : StreamCapture) (v : Nat)
    (s : SessionState)
    (h : ¬(s.lastSensorRep < v ∧ currentReps s < s.reps ∧ s.showRestDrawer = false)) :
    applyCounterValueDeltaOnly cap v s = { s with sensorReps := v } := by
  simp only [applyCounterValueDeltaOnly, currentReps_set_sensorReps]
  rw [if_neg h]

theorem foldl_applyCounterValue_le (samples : List (StreamCapture × Nat)) :
    ∀ s0 : SessionState, (∀ i, s0.setRepsCompleted.getD i 0 ≤ s0.reps) →
    ∀ j, (samples.foldl (fun s p => applyCounterValue p.1 p.2 s) s0).setRepsCompleted.getD
        j 0 ≤ s0.reps := by
  induction samples with
  | nil => intro s0 hall j; exact hall j
  | cons p rest ih =>
    intro s0 hall j
    rw [List.foldl_cons]
    have hreps := (applyCounterValue_frame p.1 p.2 s0).2.1
    have hall1 : ∀ i, (applyCounterValue p.1 p.2 s0).setRepsCompleted.getD i 0 ≤
        (applyCounterValue p.1 p.2 s0).reps := by
      intro i
      rw [hreps]
      exact applyCounterValue_le p.1 p.2 s0 hall i
    have := ih (applyCounterValue p.1 p.2 s0) hall1 j
    rw [hreps] at this
    exact this

/-! ### Helper lemmas: further sample-handler facts -/

theorem applyCounterValue_length (cap : StreamCapture) (v : Nat) (s : SessionState) :
    (applyCounterValue cap v s).setRepsCompleted.length = s.setRepsCompleted.length := by
  by_cases h : s.lastSensorRep < v ∧ currentReps s < s.reps ∧ s.showRestDrawer = false
  · rw [applyCounterValue_of_inc cap v s h.1 h.2.1 h.2.2]
    exact iterate_incrementRep_length cap _ { s with sensorReps := v }
  · rw [applyCounterValue_of_not_inc cap v s h]

theorem applyCounterValue_getD_ne (cap : StreamCapture) (v : Nat) (s : SessionState)
    (j : Nat) (hj : j ≠ s.currentSetIndex) :
    (applyCounterValue cap v s).setRepsCompleted.getD j 0 =
      s.setRepsCompleted.getD j 0 := by
  by_cases h : s.lastSensorRep < v ∧ currentReps s < s.reps ∧ s.showRestDrawer = false
  · rw [applyCounterValue_of_inc cap v s h.1 h.2.1 h.2.2]
    exact iterate_incrementRep_getD_ne cap _ { s with sensorReps := v } j hj
  · rw [applyCounterValue_of_not_inc cap v s h]

theorem iterate_incrementRep_drawer_imp (cap : StreamCapture) (n : Nat)
    (s : SessionState) :
    ((incrementRep cap)^[n] s).showRestDrawer = true →
      s.showRestDrawer = true ∨ s.currentSetIndex + 1 < s.sets := by
  induction n with
  | zero => intro h; exact Or.inl h
  | succ n ih =>
    rw [Function.iterate_succ_apply']
    intro h
    rw [incrementRep_showRestDrawer] at h
    by_cases hc : cap.allComplete = false ∧
        ((incrementRep cap)^[n] s).reps ≤ cap.currentReps + 1 ∧
        ((incrementRep cap)^[n] s).currentSetIndex + 1 < ((incrementRep cap)^[n] s).sets
    · right
      have hidx := (iterate_incrementRep_frame cap n s).2.2.1
      have hsets := (iterate_incrementRep_frame cap n s).1
      rw [hidx, hsets] at hc
      exact hc.2.2
    · rw [if_neg hc] at h
      exact ih h

theorem applyCounterValue_drawer_imp (cap : StreamCapture) (v : Nat) (s : SessionState) :
    (applyCounterValue cap v s).showRestDrawer = true →
      s.showRestDrawer = true ∨ s.currentSetIndex + 1 < s.sets := by
  by_cases h : s.lastSensorRep < v ∧ currentReps s < s.reps ∧ s.showRestDrawer = false
  · rw [applyCounterValue_of_inc cap v s h.1 h.2.1 h.2.2]
    intro hd
    exact iterate_incrementRep_drawer_imp cap _ { s with sensorReps := v } hd
  · rw [applyCounterValue_of_not_inc cap v s h]
    exact Or.inl

/-! ### Helper lemmas: session invariants -/

theorem not_complete_of_drawer (s : SessionState) (h : GoodSession s)
    (hd : s.showRestDrawer = true) : isAllSetsComplete s = false := by
  obtain ⟨hr, hs, hlen, _, hidx, _, hzero, hdraw⟩ := h
  by_contra hc
  rw [Bool.not_eq_false] at hc
  have hj := hdraw hd
  have h1 : s.currentSetIndex < s.sets - 1 + 1 := by omega
  have hz := hzero (s.sets - 1) (by omega)
  have := (isAllSetsComplete_iff s).mp hc (s.sets - 1) (by omega)
  omega

theorem drawer_false_of_complete (s : SessionState) (h : GoodSession s)
    (hc : isAllSetsComplete s = true) : s.showRestDrawer = false := by
  by_contra hd
  rw [Bool.not_eq_false] at hd
  rw [not_complete_of_drawer s h hd] at hc
  exact Bool.noConfusion hc

theorem not_currentReps_lt_of_complete (s : SessionState) (h : GoodSession s)
    (hc : isAllSetsComplete s = true) : ¬ currentReps s < s.reps := by
  obtain ⟨hr, hs, hlen, _, hidx, _, _, _⟩ := h
  have := (isAllSetsComplete_iff s).mp hc s.currentSetIndex (by omega)
  unfold currentReps
  omega

theorem isAllSetsComplete_mono (s t : SessionState) (hreps : t.reps = s.reps)
    (hlen : t.setRepsCompleted.length = s.setRepsCompleted.length)
    (hmono : ∀ j, s.setRepsCompleted.getD j 0 ≤ t.setRepsCompleted.getD j 0)
    (hc : isAllSetsComplete s = true) : isAllSetsComplete t = true := by
  rw [isAllSetsComplete_iff] at hc ⊢
  intro j hj
  rw [hreps]
  have := hc j (by omega)
  have := hmono j
  omega

theorem incrementRep_good (cap : StreamCapture) (s : SessionState)
    (h : GoodSession s) : GoodSession (incrementRep cap s) := by
  obtain ⟨hr, hs, hlen, hrest, hidx, hle, hzero, hdraw⟩ := h
  have hf := incrementRep_frame cap s
  refine ⟨by rw [hf.2.1]; exact hr, by rw [hf.1]; exact hs, ?_, ?_, ?_, ?_, ?_, ?_⟩
  · rw [incrementRep_length, hf.1]; exact hlen
  · rw [hf.2.2.2.1, hf.1]; exact hrest
  · rw [hf.2.2.1, hf.1]; exact hidx
  · intro j
    rw [hf.2.1, incrementRep_setRepsCompleted]
    split
    · exact hle j
    · exact bumpCompleted_le _ _ _ hle j
  · intro j hj
    rw [hf.2.2.1] at hj
    rw [incrementRep_getD_ne cap s j (by omega)]
    exact hzero j hj
  · intro hd
    rw [hf.2.2.1, hf.1]
    rw [incrementRep_showRestDrawer] at hd
    by_cases hcond : cap.allComplete = false ∧ s.reps ≤ cap.currentReps + 1 ∧
        s.currentSetIndex + 1 < s.sets
    · exact hcond.2.2
    · rw [if_neg hcond] at hd
      exact hdraw hd

theorem applyCounterValue_good (cap : StreamCapture) (v : Nat) (s : SessionState)
    (h : GoodSession s) : GoodSession (applyCounterValue cap v s) := by
  obtain ⟨hr, hs, hlen, hrest, hidx, hle, hzero, hdraw⟩ := h
  have hf := applyCounterValue_frame cap v s
  refine ⟨by rw [hf.2.1]; exact hr, by rw [hf.1]; exact hs, ?_, ?_, ?_, ?_, ?_, ?_⟩
  · rw [applyCounterValue_length, hf.1]; exact hlen
  · rw [hf.2.2.2.1, hf.1]; exact hrest
  · rw [hf.2.2.1, hf.1]; exact hidx
  · intro j
    rw [hf.2.1]
    exact applyCounterValue_le cap v s hle j
  · intro j hj
    rw [hf.2.2.1] at hj
    rw [applyCounterValue_getD_ne cap v s j (by omega)]
    exact hzero j hj
  · intro hd
    rw [hf.2.2.1, hf.1]
    rcases applyCounterValue_drawer_imp cap v s hd with h1 | h1
    · exact hdraw h1
    · exact h1

theorem handleNotificationText_none (cap : StreamCapture) (t : String)
    (s : SessionState) (hp : parseRepsText t = none) :
    handleNotificationText cap t s =
      { s with bleLastText := some t, bleNotifyCount := s.bleNotifyCount + 1 } := by
  simp only [handleNotificationText]
  rw [hp]

theorem handleNotificationText_some (cap : StreamCapture) (t : String)
    (s : SessionState) (v : Nat) (hp : parseRepsText t = some v) :
    handleNotificationText cap t s =
      applyCounterValue cap v
        { s with bleLastText := some t, bleNotifyCount := s.bleNotifyCount + 1 } := by
  simp only [handleNotificationText]
  rw [hp]

theorem handleNotificationText_good (cap : StreamCapture) (t : String)
    (s : SessionState) (h : GoodSession s) :
    GoodSession (handleNotificationText cap t s) := by
  cases hp : parseRepsText t with
  | none =>
    rw [handleNotificationText_none cap t s hp]
    exact h
  | some v =>
    rw [handleNotificationText_some cap t s v hp]
    exact applyCounterValue_good cap v _ h

theorem handleNotificationText_frame (cap : StreamCapture) (t : String)
    (s : SessionState) :
    (handleNotificationText cap t s).sets = s.sets ∧
    (handleNotificationText cap t s).reps = s.reps ∧
    (handleNotificationText cap t s).currentSetIndex = s.currentSetIndex ∧
    (handleNotificationText cap t s).setRestTimes = s.setRestTimes ∧
    (handleNotificationText cap t s).restTimer = s.restTimer := by
  cases hp : parseRepsText t with
  | none =>
    rw [handleNotificationText_none cap t s hp]
    exact ⟨rfl, rfl, rfl, rfl, rfl⟩
  | some v =>
    rw [handleNotificationText_some cap t s v hp]
    have hf := applyCounterValue_frame cap v
      { s with bleLastText := some t, bleNotifyCount := s.bleNotifyCount + 1 }
    exact ⟨hf.1, hf.2.1, hf.2.2.1, hf.2.2.2.1, hf.2.2.2.2.1⟩

theorem handleNotificationText_length (cap : StreamCapture) (t : String)
    (s : SessionState) :
    (handleNotificationText cap t s).setRepsCompleted.length =
      s.setRepsCompleted.length := by
  cases hp : parseRepsText t with
  | none => rw [handleNotificationText_none cap t s hp]
  | some v =>
    rw [handleNotificationText_some cap t s v hp]
    exact applyCounterValue_length cap v _

theorem handleNotificationText_mono (cap : StreamCapture) (t : String)
    (s : SessionState) (j : Nat) :
    s.setRepsCompleted.getD j 0 ≤
      (handleNotificationText cap t s).setRepsCompleted.getD j 0 := by
  cases hp : parseRepsText t with
  | none =>
    rw [handleNotificationText_none cap t s hp]
  | some v =>
    rw [handleNotificationText_some cap t s v hp]
    exact applyCounterValue_mono cap v
      { s with bleLastText := some t, bleNotifyCount := s.bleNotifyCount + 1 } j

theorem handleNotificationText_complete_stable (cap : StreamCapture) (t : String)
    (s : SessionState) (h : GoodSession s) (hc : isAllSetsComplete s = true) :
    (handleNotificationText cap t s).setRepsCompleted = s.setRepsCompleted ∧
    (handleNotificationText cap t s).showRestDrawer = s.showRestDrawer := by
  cases hp : parseRepsText t with
  | none =>
    rw [handleNotificationText_none cap t s hp]
    exact ⟨rfl, rfl⟩
  | some v =>
    rw [handleNotificationText_some cap t s v hp]
    rw [applyCounterValue_of_not_inc cap v
      { s with bleLastText := some t, bleNotifyCount := s.bleNotifyCount + 1 }
      (fun hcon => not_currentReps_lt_of_complete s h hc hcon.2.1)]
    exact ⟨rfl, rfl⟩

theorem continueToNextSet_good (s : SessionState) (h : GoodSession s)
    (hd : s.showRestDrawer = true) : GoodSession (continueToNextSet s) := by
  obtain ⟨hr, hs, hlen, hrest, hidx, hle, hzero, hdraw⟩ := h
  have hnext := hdraw hd
  refine ⟨hr, hs, hlen, ?_, by show s.currentSetIndex + 1 < s.sets; omega, hle, ?_, ?_⟩
  · show (s.setRestTimes.set s.currentSetIndex s.restTimer).length = s.sets
    rw [List.length_set]
    exact hrest
  · intro j hj
    have he : (continueToNextSet s).currentSetIndex = s.currentSetIndex + 1 := rfl
    exact hzero j (by omega)
  · intro hfalse
    exact Bool.noConfusion hfalse

/-! ### Helper lemmas: the effect pass -/

theorem runSaveEffect_session (a : AppState) : (runSaveEffect a).session = a.session := by
  unfold runSaveEffect
  split <;> rfl

theorem runSaveEffect_userId (a : AppState) : (runSaveEffect a).userId = a.userId := by
  unfold runSaveEffect
  split <;> rfl

theorem runSaveEffect_prevBleDeps (a : AppState) :
    (runSaveEffect a).prevBleDeps = a.prevBleDeps := by
  unfold runSaveEffect
  split <;> rfl

theorem runSaveEffect_cap (a : AppState) : (runSaveEffect a).cap = a.cap := by
  unfold runSaveEffect
  split <;> rfl

theorem runSaveEffect_prevSaveDeps (a : AppState) :
    (runSaveEffect a).prevSaveDeps = saveDepsOf a.session a.userId := by
  unfold runSaveEffect
  split
  · rfl
  · next h => exact (not_ne_iff.mp h).symm

theorem runSaveEffect_savedCount (a : AppState) :
    (runSaveEffect a).savedCount =
      if saveDepsOf a.session a.userId ≠ a.prevSaveDeps ∧
          (isAllSetsComplete a.session = true ∧ a.userId.isSome = true) then
        a.savedCount + 1
      else a.savedCount := by
  unfold runSaveEffect
  by_cases h1 : saveDepsOf a.session a.userId ≠ a.prevSaveDeps
  · rw [if_pos h1]
    show (if isAllSetsComplete a.session = true ∧ a.userId.isSome = true then
      a.savedCount + 1 else a.savedCount) =
      if saveDepsOf a.session a.userId ≠ a.prevSaveDeps ∧
          (isAllSetsComplete a.session = true ∧ a.userId.isSome = true) then
        a.savedCount + 1
      else a.savedCount
    by_cases h2 : isAllSetsComplete a.session = true ∧ a.userId.isSome = true
    · rw [if_pos h2, if_pos ⟨h1, h2⟩]
    · rw [if_neg h2, if_neg (fun hcon => h2 hcon.2)]
  · rw [if_neg h1, if_neg (fun hcon => h1 hcon.1)]

theorem runBleEffect_session (a : AppState) : (runBleEffect a).session = a.session := by
  unfold runBleEffect
  split <;> rfl

theorem runBleEffect_userId (a : AppState) : (runBleEffect a).userId = a.userId := by
  unfold runBleEffect
  split <;> rfl

theorem runBleEffect_savedCount (a : AppState) :
    (runBleEffect a).savedCount = a.savedCount := by
  unfold runBleEffect
  split <;> rfl

theorem runBleEffect_prevSaveDeps (a : AppState) :
    (runBleEffect a).prevSaveDeps = a.prevSaveDeps := by
  unfold runBleEffect
  split <;> rfl

theorem runBleEffect_prevBleDeps (a : AppState) :
    (runBleEffect a).prevBleDeps = bleDepsOf a.session := by
  unfold runBleEffect
  split
  · rfl
  · next h => exact (not_ne_iff.mp h).symm

theorem runBleEffect_cap_sound (a : AppState)
    (h : a.cap.allComplete = true → isAllSetsComplete a.session = true) :
    (runBleEffect a).cap.allComplete = true →
      isAllSetsComplete (runBleEffect a).session = true := by
  rw [runBleEffect_session]
  unfold runBleEffect
  split
  · intro hc
    exact hc
  · exact h

/-! ### Helper lemmas: event handlers preserve the screen invariants -/

theorem applyEvent_frame (e : SessionEvent) (a : AppState) :
    (applyEvent e a).cap = a.cap ∧
    (applyEvent e a).savedCount = a.savedCount ∧
    (applyEvent e a).prevSaveDeps = a.prevSaveDeps ∧
    (applyEvent e a).prevBleDeps = a.prevBleDeps := by
  cases e <;>
    first
      | exact ⟨rfl, rfl, rfl, rfl⟩
      | (simp only [applyEvent]; split <;> exact ⟨rfl, rfl, rfl, rfl⟩)

theorem applyEvent_good (e : SessionEvent) (a : AppState)
    (h : GoodSession a.session) : GoodSession (applyEvent e a).session := by
  cases e with
  | sensorText t => exact handleNotificationText_good a.cap t a.session h
  | tapIncrement => exact incrementRep_good _ a.session h
  | pressContinue =>
    simp only [applyEvent]
    split
    · next hd => exact continueToNextSet_good a.session h hd
    · exact h
  | restTick =>
    simp only [applyEvent]
    split
    · exact ⟨h.1, h.2.1, h.2.2.1, h.2.2.2.1, h.2.2.2.2.1, h.2.2.2.2.2.1,
        h.2.2.2.2.2.2.1, h.2.2.2.2.2.2.2⟩
    · exact h
  | userIdArrives uid =>
    simp only [applyEvent]
    split
    · exact h
    · exact h
  | rerender => exact h

theorem applyEvent_complete_mono (e : SessionEvent) (a : AppState)
    (hc : isAllSetsComplete a.session = true) :
    isAllSetsComplete (applyEvent e a).session = true := by
  cases e with
  | sensorText t =>
    exact isAllSetsComplete_mono a.session _
      (handleNotificationText_frame a.cap t a.session).2.1
      (handleNotificationText_length a.cap t a.session)
      (handleNotificationText_mono a.cap t a.session) hc
  | tapIncrement =>
    show isAllSetsComplete
      (incrementRep ⟨currentReps a.session, isAllSetsComplete a.session⟩ a.session) = true
    rw [incrementRep_of_allComplete _ _ hc]
    exact hc
  | pressContinue =>
    simp only [applyEvent]
    split
    · exact hc
    · exact hc
  | restTick =>
    simp only [applyEvent]
    split
    · exact hc
    · exact hc
  | userIdArrives uid =>
    simp only [applyEvent]
    split
    · exact hc
    · exact hc
  | rerender => exact hc

theorem applyEvent_userId_mono (e : SessionEvent) (a : AppState)
    (hu : a.userId.isSome = true) : (applyEvent e a).userId = a.userId := by
  cases e with
  | sensorText t => rfl
  | tapIncrement => rfl
  | pressContinue =>
    simp only [applyEvent]
    split
    · rfl
    · rfl
  | restTick =>
    simp only [applyEvent]
    split
    · rfl
    · rfl
  | userIdArrives uid =>
    simp only [applyEvent]
    split
    · next hn => rw [hn] at hu; exact Bool.noConfusion hu
    · rfl
  | rerender => rfl

theorem applyEvent_save_stable (e : SessionEvent) (a : AppState)
    (hg : GoodSession a.session) (hc : isAllSetsComplete a.session = true)
    (hu : a.userId.isSome = true) :
    saveDepsOf (applyEvent e a).session (applyEvent e a).userId =
      saveDepsOf a.session a.userId := by
  cases e with
  | sensorText t =>
    have hst := handleNotificationText_complete_stable a.cap t a.session hg hc
    have hfr := handleNotificationText_frame a.cap t a.session
    have h1 : isAllSetsComplete (handleNotificationText a.cap t a.session) =
        isAllSetsComplete a.session := by
      unfold isAllSetsComplete
      rw [hst.1, hfr.2.1]
    show saveDepsOf (handleNotificationText a.cap t a.session) a.userId =
      saveDepsOf a.session a.userId
    unfold saveDepsOf
    rw [h1, hst.1, hfr.2.2.2.1]
  | tapIncrement =>
    show saveDepsOf
      (incrementRep ⟨currentReps a.session, isAllSetsComplete a.session⟩ a.session)
      a.userId = saveDepsOf a.session a.userId
    rw [incrementRep_of_allComplete _ _ hc]
  | pressContinue =>
    simp only [applyEvent]
    split
    · next hd =>
      rw [drawer_false_of_complete a.session hg hc] at hd
      exact Bool.noConfusion hd
    · rfl
  | restTick =>
    simp only [applyEvent]
    split
    · rfl
    · rfl
  | userIdArrives uid =>
    simp only [applyEvent]
    split
    · next hn => rw [hn] at hu; exact Bool.noConfusion hu
    · rfl
  | rerender => rfl

theorem step_preserves_good (a : AppState) (e : SessionEvent) (h : GoodApp a) :
    GoodApp (step a e) := by
  obtain ⟨hgs, hcap, hps, hpb, hsc⟩ := h
  have hfr := applyEvent_frame e a
  have hses : (step a e).session = (applyEvent e a).session := by
    show (runBleEffect (runSaveEffect (applyEvent e a))).session = _
    rw [runBleEffect_session, runSaveEffect_session]
  have huid : (step a e).userId = (applyEvent e a).userId := by
    show (runBleEffect (runSaveEffect (applyEvent e a))).userId = _
    rw [runBleEffect_userId, runSaveEffect_userId]
  refine ⟨?_, ?_, ?_, ?_, ?_⟩
  · rw [hses]
    exact applyEvent_good e a hgs
  · show (runBleEffect (runSaveEffect (applyEvent e a))).cap.allComplete = true → _
    apply runBleEffect_cap_sound
    rw [runSaveEffect_cap, runSaveEffect_session, hfr.1]
    intro hcc
    exact applyEvent_complete_mono e a (hcap hcc)
  · show (runBleEffect (runSaveEffect (applyEvent e a))).prevSaveDeps = _
    rw [runBleEffect_prevSaveDeps, runSaveEffect_prevSaveDeps, hses, huid]
  · show (runBleEffect (runSaveEffect (applyEvent e a))).prevBleDeps = _
    rw [runBleEffect_prevBleDeps, runSaveEffect_session, hses]
  · show (runBleEffect (runSaveEffect (applyEvent e a))).savedCount = _
    rw [runBleEffect_savedCount, runSaveEffect_savedCount, hses, huid,
      hfr.2.1, hfr.2.2.1, hps]
    by_cases hcb : isAllSetsComplete (applyEvent e a).session = true ∧
        (applyEvent e a).userId.isSome = true
    · rw [if_pos hcb]
      by_cases hca : isAllSetsComplete a.session = true ∧ a.userId.isSome = true
      · have hdeq := applyEvent_save_stable e a hgs hca.1 hca.2
        rw [if_neg (fun hcon => hcon.1 hdeq), hsc, if_pos hca]
      · have hne : saveDepsOf (applyEvent e a).session (applyEvent e a).userId ≠
            saveDepsOf a.session a.userId := by
          intro heq
          by_cases hcomp : isAllSetsComplete a.session = true
          · have hua : a.userId.isSome = false := by
              by_contra hx
              rw [Bool.not_eq_false] at hx
              exact hca ⟨hcomp, hx⟩
            have huideq : (applyEvent e a).userId = a.userId :=
              congrArg SaveDeps.userId heq
            rw [huideq] at hcb
            rw [hcb.2] at hua
            exact Bool.noConfusion hua
          · have hceq : isAllSetsComplete (applyEvent e a).session =
                isAllSetsComplete a.session := congrArg SaveDeps.allComplete heq
            rw [hcb.1] at hceq
            exact hcomp hceq.symm
        rw [if_pos ⟨hne, hcb⟩, hsc, if_neg hca]
    · rw [if_neg hcb, if_neg (fun hcon => hcb hcon.2), hsc]
      have hna : ¬(isAllSetsComplete a.session = true ∧ a.userId.isSome = true) := by
        intro hca
        apply hcb
        refine ⟨applyEvent_complete_mono e a hca.1, ?_⟩
        rw [applyEvent_userId_mono e a hca.2]
        exact hca.2
      rw [if_neg hna]

theorem replicate_getD_zero (n j : Nat) : (List.replicate n 0).getD j 0 = 0 := by
  unfold List.getD
  rw [List.get?_eq_getElem?]
  by_cases hj : j < n
  · rw [List.getElem?_eq_getElem (by rw [List.length_replicate]; exact hj)]
    simp [List.getElem_replicate]
  · rw [List.getElem?_eq_none (by rw [List.length_replicate]; omega)]
    rfl

theorem initialApp_good (sets reps : Nat) (hs : 1 ≤ sets) (hr : 1 ≤ reps) :
    GoodApp (initialApp sets reps) := by
  refine ⟨⟨hr, hs, ?_, ?_, hs, ?_, ?_, ?_⟩, ?_, rfl, rfl, ?_⟩
  · exact List.length_replicate sets 0
  · exact List.length_replicate sets 0
  · intro j
    show (List.replicate sets 0).getD j 0 ≤ reps
    rw [replicate_getD_zero]
    omega
  · intro j hj
    exact replicate_getD_zero sets j
  · intro hfalse
    exact Bool.noConfusion hfalse
  · exact fun h => h
  · show (0 : Nat) = if isAllSetsComplete (initialSession sets reps) = true ∧
      (none : Option String).isSome = true then 1 else 0
    rw [if_neg (fun hcon => Bool.noConfusion hcon.2)]

theorem run_preserves_good (es : List SessionEvent) :
    ∀ a : AppState, GoodApp a → GoodApp (run a es) := by
  induction es with
  | nil => exact fun a h => h
  | cons e rest ih =>
    intro a h
    show GoodApp (List.foldl step a (e :: rest))
    rw [List.foldl_cons]
    exact ih (step a e) (step_preserves_good a e h)

/-! ### Claim theorems -/

/-- C1: for every sequence of sensor counter samples applied to one set, the
total reps added to that set never exceeds `targetReps` minus the reps
already completed at the start, and no rep is ever added while the rest
period is active; each sample with parsed value `v` and baseline `last` adds
`min(v - last, targetReps - currentReps)` reps exactly when `v - last > 0`,
`currentReps < targetReps` and not resting (the captured `isAllSetsComplete`
being false, which holds whenever the subscription is live). -/
theorem sensor_sample_reps_clamped :
    (∀ (s0 : SessionState) (samples : List (StreamCapture × Nat)) (j : Nat),
      (∀ i, s0.setRepsCompleted.getD i 0 ≤ s0.reps) →
      (samples.foldl (fun s p => applyCounterValue p.1 p.2 s) s0).setRepsCompleted.getD
          j 0 - s0.setRepsCompleted.getD j 0 ≤ s0.reps - s0.setRepsCompleted.getD j 0) ∧
    (∀ (cap : StreamCapture) (v : Nat) (s : SessionState), s.showRestDrawer = true →
      (applyCounterValue cap v s).setRepsCompleted = s.setRepsCompleted) ∧
    (∀ (cap : StreamCapture) (v : Nat) (s : SessionState),
      ¬(s.lastSensorRep < v ∧ currentReps s < s.reps ∧ s.showRestDrawer = false) →
      (applyCounterValue cap v s).setRepsCompleted = s.setRepsCompleted) ∧
    (∀ (cap : StreamCapture) (v : Nat) (s : SessionState),
      s.lastSensorRep < v → currentReps s < s.reps → s.showRestDrawer = false →
      cap.allComplete = false → s.currentSetIndex < s.setRepsCompleted.length →
      currentReps (applyCounterValue cap v s) =
        currentReps s + min (v - s.lastSensorRep) (s.reps - currentReps s)) := by
  refine ⟨?_, ?_, ?_, ?_⟩
  · intro s0 samples j hall
    exact Nat.sub_le_sub_right (foldl_applyCounterValue_le samples s0 hall j) _
  · intro cap v s h
    rw [applyCounterValue_of_rest cap v s h]
  · intro cap v s h
    rw [applyCounterValue_of_not_inc cap v s h]
  · intro cap v s h1 h2 h3 hc hi
    exact applyCounterValue_adds cap v s h1 h2 h3 hc hi

/-- C1 witness: a concrete instantiation of each clamping clause at
`targetReps = 3` on a fresh single-set session. -/
theorem sensor_sample_reps_clamped_witness :
    ((([(⟨0, false⟩, 5)] : List (StreamCapture × Nat)).foldl
        (fun s p => applyCounterValue p.1 p.2 s)
        (initialSession 1 3)).setRepsCompleted.getD 0 0
      - (initialSession 1 3).setRepsCompleted.getD 0 0 ≤
        (initialSession 1 3).reps - (initialSession 1 3).setRepsCompleted.getD 0 0) ∧
    currentReps (applyCounterValue ⟨0, false⟩ 5 (initialSession 1 3)) =
      currentReps (initialSession 1 3) + min 5 3 := by
  have hall : ∀ i, (initialSession 1 3).setRepsCompleted.getD i 0 ≤
      (initialSession 1 3).reps := by
    intro i
    have h0 : (initialSession 1 3).setRepsCompleted = [0] := by decide
    rw [h0]
    cases i with
    | zero => decide
    | succ n => simp [List.getD]
  refine ⟨sensor_sample_reps_clamped.1 (initialSession 1 3)
    [(⟨0, false⟩, 5)] 0 hall, ?_⟩
  have h := sensor_sample_reps_clamped.2.2.2 ⟨0, false⟩ 5 (initialSession 1 3)
    (by decide) (by decide) (by decide) (by decide) (by decide)
  simpa using h

/-- C9: the two-branch rep merge rule equals its delta branch alone: the
first-rep fallback branch is unreachable because `lastSensorCounter = 0` and
`v > 0` already imply `delta > 0`; consequently the first sample of a fresh
set with value `v` adds `min(v, targetReps - currentReps)` reps, not exactly
one. -/
theorem merge_rule_delta_branch_only :
    (∀ (cap : StreamCapture) (v : Nat) (s : SessionState),
      applyCounterValue cap v s = applyCounterValueDeltaOnly cap v s) ∧
    (∀ (cap : StreamCapture) (v : Nat) (s : SessionState),
      s.lastSensorRep = 0 → 0 < v → s.showRestDrawer = false →
      currentReps s < s.reps → cap.allComplete = false →
      s.currentSetIndex < s.setRepsCompleted.length →
      currentReps (applyCounterValue cap v s) =
        currentReps s + min v (s.reps - currentReps s)) := by
  constructor
  · intro cap v s
    by_cases h : s.lastSensorRep < v ∧ currentReps s < s.reps ∧ s.showRestDrawer = false
    · rw [applyCounterValue_of_inc cap v s h.1 h.2.1 h.2.2,
        applyCounterValueDeltaOnly_of_inc cap v s h.1 h.2.1 h.2.2]
    · rw [applyCounterValue_of_not_inc cap v s h,
        applyCounterValueDeltaOnly_of_not_inc cap v s h]
  · intro cap v s h0 hv h3 h2 hc hi
    have h1 : s.lastSensorRep < v := by omega
    have := applyCounterValue_adds cap v s h1 h2 h3 hc hi
    rwa [h0, Nat.sub_zero] at this

/-- C9 witness: on a fresh two-rep-target set, a first sample of 5 adds two
reps (the clamp of 5), not one. -/
theorem merge_rule_delta_branch_only_witness :
    applyCounterValue ⟨0, false⟩ 5 (initialSession 1 2) =
      applyCounterValueDeltaOnly ⟨0, false⟩ 5 (initialSession 1 2) ∧
    currentReps (applyCounterValue ⟨0, false⟩ 5 (initialSession 1 2)) =
      currentReps (initialSession 1 2) + min 5 2 := by
  refine ⟨merge_rule_delta_branch_only.1 ⟨0, false⟩ 5 (initialSession 1 2), ?_⟩
  have h := merge_rule_delta_branch_only.2 ⟨0, false⟩ 5 (initialSession 1 2)
    (by decide) (by decide) (by decide) (by decide) (by decide) (by decide)
  simpa using h

/-- C4: with `targetReps = 10`, the counter sequence 0,1,...,10 delivered as
separate samples yields exactly 10 completed reps for the set, and the
subsequent samples 11 and 12 add nothing further. -/
theorem counter_sequence_caps_at_ten :
    (((List.range 11).foldl (fun s v => applyCounterValue ⟨0, false⟩ v s)
        (initialSession 1 10)).setRepsCompleted = [10]) ∧
    (((List.range 13).foldl (fun s v => applyCounterValue ⟨0, false⟩ v s)
        (initialSession 1 10)).setRepsCompleted = [10]) := by
  decide

theorem leadingNumber_eq_none_of_no_digit (l : List Char)
    (h : ∀ c ∈ l, isAsciiDigit c = false) : leadingNumber l = none := by
  unfold leadingNumber
  have : l.takeWhile isAsciiDigit = [] := by
    cases l with
    | nil => rfl
    | cons c cs =>
      rw [List.takeWhile_cons_of_neg]
      simp [h c (by simp)]
  simp [this]

theorem repsMatchHere_eq_none_of_no_digit : ∀ l : List Char,
    (∀ c ∈ l, isAsciiDigit c = false) → repsMatchHere l = none
  | [], _ => rfl
  | [_], _ => rfl
  | [_, _], _ => rfl
  | [_, _, _], _ => rfl
  | a :: b :: c :: d :: rest, h => by
    show (if a.toLower = 'r' && b.toLower = 'e' && c.toLower = 'p' && d.toLower = 's' then
        leadingNumber (rest.dropWhile isSepChar) else none) = none
    split
    · apply leadingNumber_eq_none_of_no_digit
      intro x hx
      have hx2 : x ∈ rest := (List.dropWhile_sublist isSepChar).mem hx
      exact h x (by simp [hx2])
    · rfl

theorem findRepsValue_eq_none_of_no_digit (l : List Char)
    (h : ∀ c ∈ l, isAsciiDigit c = false) : findRepsValue l = none := by
  induction l with
  | nil => rfl
  | cons c cs ih =>
    unfold findRepsValue
    rw [repsMatchHere_eq_none_of_no_digit _ h]
    exact ih (fun x hx => h x (by simp [hx]))

theorem findFirstNumber_eq_none_of_no_digit (l : List Char)
    (h : ∀ c ∈ l, isAsciiDigit c = false) : findFirstNumber l = none := by
  induction l with
  | nil => rfl
  | cons c cs ih =>
    unfold findFirstNumber
    rw [if_neg (by simp [h c (by simp)])]
    exact ih (fun x hx => h x (by simp [hx]))

/-- C5: parsing of a decoded notification text proceeds in order — the
labeled `REPS` pattern first (leftmost match wins), else the first decimal
integer substring, else no value — and a payload with no digits yields no
parsed value, mutates no rep/set state and surfaces no error (only the
diagnostics `bleLastText`/`bleNotifyCount` are recorded). -/
theorem notification_parse_order_and_no_digit_safety :
    (∀ (t : String) (n : Nat), findRepsValue t.data = some n → parseRepsText t = some n) ∧
    (∀ t : String, findRepsValue t.data = none →
      parseRepsText t = findFirstNumber t.data) ∧
    (∀ t : String, (∀ c ∈ t.data, isAsciiDigit c = false) → parseRepsText t = none) ∧
    parseRepsText "7 REPS:5" = some 5 ∧
    parseRepsText "abc 42def" = some 42 ∧
    parseRepsText "xyz" = none ∧
    (∀ (cap : StreamCapture) (t : String) (s : SessionState), parseRepsText t = none →
      handleNotificationText cap t s =
        { s with bleLastText := some t, bleNotifyCount := s.bleNotifyCount + 1 }) := by
  refine ⟨?_, ?_, ?_, by decide, by decide, by decide, ?_⟩
  · intro t n h
    unfold parseRepsText
    rw [h]
  · intro t h
    unfold parseRepsText
    rw [h]
  · intro t h
    unfold parseRepsText
    rw [findRepsValue_eq_none_of_no_digit _ h]
    exact findFirstNumber_eq_none_of_no_digit _ h
  · intro cap t s h
    unfold handleNotificationText
    rw [h]

/-- C5 witness: the order and safety clauses instantiated at concrete
payloads. -/
theorem notification_parse_order_and_no_digit_safety_witness :
    parseRepsText "xyz" = none ∧
    handleNotificationText ⟨0, false⟩ "xyz" (initialSession 2 2) =
      { initialSession 2 2 with bleLastText := some "xyz", bleNotifyCount := 1 } := by
  constructor
  · exact notification_parse_order_and_no_digit_safety.2.2.1 "xyz" (by decide)
  · exact notification_parse_order_and_no_digit_safety.2.2.2.2.2.2 ⟨0, false⟩ "xyz"
      (initialSession 2 2) (by decide)

/-- C3 (code evaluation at the failing input): completing a non-final set
through sensor samples does not enter the rest state. With `targetSets = 2`,
`targetReps = 2` and a fresh session, a single bulk notification with counter
value 2 — and likewise the unit-delta sequence 1, 2 — completes set 0 but
leaves `showRestDrawer = false`, because the completion check inside
`incrementRep` reads the closure-captured `currentReps` of the render at
which the BLE effect last ran (0 for a fresh set), so
`currentReps + 1 >= reps` is evaluated as `0 + 1 >= 2`. The claim (and the
source's own comment at plan.tsx:2225) requires the transition to Resting.
The final-set half of the claim does hold: completing the last set yields
`isAllSetsComplete` with no rest drawer. -/
theorem set_completion_misses_rest_transition :
    ((applyCounterValue ⟨0, false⟩ 2 (initialSession 2 2)).setRepsCompleted = [2, 0] ∧
      (applyCounterValue ⟨0, false⟩ 2 (initialSession 2 2)).showRestDrawer = false) ∧
    ((applyCounterValue ⟨0, false⟩ 2
        (applyCounterValue ⟨0, false⟩ 1 (initialSession 2 2))).setRepsCompleted = [2, 0] ∧
      (applyCounterValue ⟨0, false⟩ 2
        (applyCounterValue ⟨0, false⟩ 1 (initialSession 2 2))).showRestDrawer = false) ∧
    ((run (initialApp 2 2) [.sensorText "REPS:1", .sensorText "REPS:2"]).session.setRepsCompleted
        = [2, 0] ∧
      (run (initialApp 2 2) [.sensorText "REPS:1",
        .sensorText "REPS:2"]).session.showRestDrawer = false) := by
  decide

/-- C2: across any sequence of screen events (sensor samples, manual taps,
rest continues, timer ticks, user-id resolution and spurious re-renders)
from a fresh session, `saveWorkout` is invoked at most once, and exactly
once whenever every entry of `setRepsCompleted` has reached `targetReps`
and the user id is known — regardless of how many times the completion
predicate is re-evaluated across re-renders, because the save effect
re-runs only when its dependency snapshot changes and no dependency can
change again once the session is complete. -/
theorem saveWorkout_exactly_once (sets reps : Nat) (hs : 1 ≤ sets) (hr : 1 ≤ reps)
    (es : List SessionEvent) :
    (run (initialApp sets reps) es).savedCount ≤ 1 ∧
    (isAllSetsComplete (run (initialApp sets reps) es).session = true →
      (run (initialApp sets reps) es).userId.isSome = true →
      (run (initialApp sets reps) es).savedCount = 1) := by
  have hg := run_preserves_good es (initialApp sets reps) (initialApp_good sets reps hs hr)
  obtain ⟨-, -, -, -, hsc⟩ := hg
  constructor
  · rw [hsc]
    split
    · omega
    · omega
  · intro h1 h2
    rw [hsc, if_pos ⟨h1, h2⟩]

/-- C2 witness: a concrete completed session (one set of one rep, completed
by a tap, with an extra re-render and a redundant tap afterwards) saves
exactly once. -/
theorem saveWorkout_exactly_once_witness :
    (run (initialApp 1 1)
      [.userIdArrives "u", .tapIncrement, .rerender, .tapIncrement]).savedCount ≤ 1 ∧
    (run (initialApp 1 1)
      [.userIdArrives "u", .tapIncrement, .rerender, .tapIncrement]).savedCount = 1 := by
  have h := saveWorkout_exactly_once 1 1 (by decide) (by decide)
    [.userIdArrives "u", .tapIncrement, .rerender, .tapIncrement]
  exact ⟨h.1, h.2 (by decide) (by decide)⟩

/-- C10 counterexample: `incrementRep` does not modify at most the
`setRepsCompleted` entry at `currentSetIndex` — on a fresh 2-set,
1-rep-target session it also flips `showRestDrawer` from false to true
(and resets the sensor baseline fields). -/
theorem incrementRep_modifies_rest_drawer :
    (initialSession 2 1).showRestDrawer = false ∧
    (incrementRep ⟨0, false⟩ (initialSession 2 1)).showRestDrawer = true := by
  decide

/-- C10 amended: `incrementRep` modifies at most the `setRepsCompleted`
entry at `currentSetIndex` (increasing it by exactly 1 only when it is below
`targetReps`) together with the rest-drawer and sensor-baseline fields,
which are set to `showRestDrawer := true`, `lastSensorRep := 0` and
`sensorReps := 0` exactly when the captured pre-call rep count says the set
completes and it is not the last set, and are untouched otherwise; every
other entry of `setRepsCompleted`, all of `setRestTimes`, `currentSetIndex`,
the targets and the diagnostics are left unchanged, and when all sets are
already complete (as captured) the call changes no session state at all. -/
theorem incrementRep_frame_characterization (cap : StreamCapture) (s : SessionState) :
    (incrementRep cap s).setRestTimes = s.setRestTimes ∧
    (incrementRep cap s).currentSetIndex = s.currentSetIndex ∧
    (incrementRep cap s).sets = s.sets ∧
    (incrementRep cap s).reps = s.reps ∧
    (incrementRep cap s).restTimer = s.restTimer ∧
    (incrementRep cap s).bleNotifyCount = s.bleNotifyCount ∧
    (incrementRep cap s).bleLastText = s.bleLastText ∧
    (incrementRep cap s).bleLastError = s.bleLastError ∧
    (∀ j, j ≠ s.currentSetIndex →
      (incrementRep cap s).setRepsCompleted.getD j 0 = s.setRepsCompleted.getD j 0) ∧
    (cap.allComplete = false → s.currentSetIndex < s.setRepsCompleted.length →
      (incrementRep cap s).setRepsCompleted.getD s.currentSetIndex 0 =
        if currentReps s < s.reps then currentReps s + 1 else currentReps s) ∧
    ((incrementRep cap s).showRestDrawer =
      if cap.allComplete = false ∧ s.reps ≤ cap.currentReps + 1 ∧
          s.currentSetIndex + 1 < s.sets then true
      else s.showRestDrawer) ∧
    ((incrementRep cap s).lastSensorRep =
      if cap.allComplete = false ∧ s.reps ≤ cap.currentReps + 1 ∧
          s.currentSetIndex + 1 < s.sets then 0
      else s.lastSensorRep) ∧
    ((incrementRep cap s).sensorReps =
      if cap.allComplete = false ∧ s.reps ≤ cap.currentReps + 1 ∧
          s.currentSetIndex + 1 < s.sets then 0
      else s.sensorReps) ∧
    (cap.allComplete = true → incrementRep cap s = s) := by
  have hf := incrementRep_frame cap s
  refine ⟨hf.2.2.2.1, hf.2.2.1, hf.1, hf.2.1, hf.2.2.2.2.1, hf.2.2.2.2.2.1,
    hf.2.2.2.2.2.2.1, hf.2.2.2.2.2.2.2, ?_, ?_, incrementRep_showRestDrawer cap s,
    incrementRep_lastSensorRep cap s, incrementRep_sensorReps cap s, ?_⟩
  · intro j hj
    exact incrementRep_getD_ne cap s j hj
  · intro hc hi
    rw [incrementRep_setRepsCompleted, hc]
    simp only [Bool.false_eq_true, if_false]
    exact bumpCompleted_getD_self s.reps s.currentSetIndex s.setRepsCompleted hi
  · intro hc
    exact incrementRep_of_allComplete cap s hc

/-- C10 amended witness: the characterization instantiated on a fresh 2-set,
2-rep-target session, including the untouched sensor baseline on a
non-completing call. -/
theorem incrementRep_frame_characterization_witness :
    (incrementRep ⟨0, false⟩ (initialSession 2 2)).setRestTimes =
      (initialSession 2 2).setRestTimes ∧
    (incrementRep ⟨0, false⟩ (initialSession 2 2)).setRepsCompleted.getD 1 0 =
      (initialSession 2 2).setRepsCompleted.getD 1 0 ∧
    (incrementRep ⟨0, false⟩ (initialSession 2 2)).setRepsCompleted.getD 0 0 =
      (if currentReps (initialSession 2 2) < (initialSession 2 2).reps then
        currentReps (initialSession 2 2) + 1 else currentReps (initialSession 2 2)) ∧
    (incrementRep ⟨0, false⟩ (initialSession 2 2)).lastSensorRep =
      (initialSession 2 2).lastSensorRep ∧
    (incrementRep ⟨0, false⟩ (initialSession 2 2)).sensorReps =
      (initialSession 2 2).sensorReps ∧
    incrementRep ⟨0, true⟩ (initialSession 2 2) = initialSession 2 2 := by
  have h := incrementRep_frame_characterization ⟨0, false⟩ (initialSession 2 2)
  have h2 := incrementRep_frame_characterization ⟨0, true⟩ (initialSession 2 2)
  refine ⟨h.1, h.2.2.2.2.2.2.2.2.1 1 (by decide),
    h.2.2.2.2.2.2.2.2.2.1 (by decide) (by decide), ?_, ?_,
    h2.2.2.2.2.2.2.2.2.2.2.2.2.2 (by decide)⟩
  · rw [h.2.2.2.2.2.2.2.2.2.2.2.1]
    decide
  · rw [h.2.2.2.2.2.2.2.2.2.2.2.2.1]
    decide

/-- C8 counterexample: the parsed input "0" is not clamped into [1,20] — the
code defaults it to 3 rather than clamping to 1 (`parsed < 1` falls back to
the default, not to the clamp bound). -/
theorem sets_param_zero_defaults_not_clamps :
    jsParseInt "0" = some 0 ∧
    sessionSets (some "0") = 3 ∧
    specClampSets 0 = 1 ∧
    sessionSets (some "0") ≠ specClampSets 0 := by
  decide

/-- C8 amended: for every input, the resulting sets value lies in [1,20] and
reps in [1,50]; non-numeric (or absent, or empty) input defaults to 3 and 10
respectively, as does any parsed value below 1; a parsed value of at least 1
is capped above by 20 (sets) and 50 (reps) but never raised. -/
theorem session_params_validated :
    (∀ p, 1 ≤ sessionSets p ∧ sessionSets p ≤ 20) ∧
    (∀ p, 1 ≤ sessionReps p ∧ sessionReps p ≤ 50) ∧
    (∀ s, jsParseInt s = none → sessionSets (some s) = 3 ∧ sessionReps (some s) = 10) ∧
    (∀ s v, jsParseInt s = some v → v < 1 →
      sessionSets (some s) = 3 ∧ sessionReps (some s) = 10) ∧
    (∀ s v, s ≠ "" → jsParseInt s = some v → 1 ≤ v →
      sessionSets (some s) = min 20 v.toNat ∧ sessionReps (some s) = min 50 v.toNat) ∧
    sessionSets none = 3 ∧ sessionReps none = 10 := by
  have hempty : jsParseInt "" = none := by decide
  refine ⟨?_, ?_, ?_, ?_, ?_, rfl, rfl⟩
  · intro p
    rcases p with _ | s
    · exact ⟨by decide, by decide⟩
    · simp only [sessionSets]
      by_cases hs : s = ""
      · rw [if_pos hs]
        exact ⟨by omega, by omega⟩
      · rw [if_neg hs]
        rcases hp : jsParseInt s with _ | v
        · exact ⟨by decide, by decide⟩
        · show 1 ≤ (if v < 1 then 3 else min 20 v.toNat) ∧
            (if v < 1 then 3 else min 20 v.toNat) ≤ 20
          constructor <;> (split <;> omega)
  · intro p
    rcases p with _ | s
    · exact ⟨by decide, by decide⟩
    · simp only [sessionReps]
      by_cases hs : s = ""
      · rw [if_pos hs]
        exact ⟨by omega, by omega⟩
      · rw [if_neg hs]
        rcases hp : jsParseInt s with _ | v
        · exact ⟨by decide, by decide⟩
        · show 1 ≤ (if v < 1 then 10 else min 50 v.toNat) ∧
            (if v < 1 then 10 else min 50 v.toNat) ≤ 50
          constructor <;> (split <;> omega)
  · intro s h
    by_cases hs : s = ""
    · subst hs
      exact ⟨by decide, by decide⟩
    · simp only [sessionSets, sessionReps]
      rw [if_neg hs, if_neg hs, h]
      exact ⟨rfl, rfl⟩
  · intro s v h hv
    have hs : s ≠ "" := by
      intro hs
      subst hs
      rw [hempty] at h
      exact Option.noConfusion h
    simp only [sessionSets, sessionReps]
    rw [if_neg hs, if_neg hs, h]
    show (if v < 1 then 3 else min 20 v.toNat) = 3 ∧
      (if v < 1 then 10 else min 50 v.toNat) = 10
    rw [if_pos hv, if_pos hv]
    exact ⟨rfl, rfl⟩
  · intro s v hs h hv
    simp only [sessionSets, sessionReps]
    rw [if_neg hs, if_neg hs, h]
    have hv2 : ¬ v < 1 := by omega
    show (if v < 1 then 3 else min 20 v.toNat) = min 20 v.toNat ∧
      (if v < 1 then 10 else min 50 v.toNat) = min 50 v.toNat
    rw [if_neg hv2, if_neg hv2]
    exact ⟨rfl, rfl⟩

/-- C8 amended witness: concrete boundary inputs — "0" defaults, "25" caps
at 20 for sets, "abc" is non-numeric. -/
theorem session_params_validated_witness :
    (1 ≤ sessionSets (some "25") ∧ sessionSets (some "25") ≤ 20) ∧
    (sessionSets (some "abc") = 3 ∧ sessionReps (some "abc") = 10) ∧
    (sessionSets (some "0") = 3 ∧ sessionReps (some "0") = 10) ∧
    (sessionSets (some "25") = min 20 (25 : Int).toNat ∧
      sessionReps (some "25") = min 50 (25 : Int).toNat) := by
  refine ⟨session_params_validated.1 (some "25"), ?_, ?_, ?_⟩
  · exact session_params_validated.2.2.1 "abc" (by decide)
  · exact session_params_validated.2.2.2.1 "0" 0 (by decide) (by decide)
  · exact session_params_validated.2.2.2.2.1 "25" 25 (by decide) (by decide) (by decide)

/-- C7 counterexample: name matching is not case-sensitive — with no target
address, target name "IMU-STACK" and a peripheral advertising primary name
"imu-stack", the code selects the peripheral while the claimed case-sensitive
exact match would not. -/
theorem discovery_name_match_not_case_sensitive :
    matchesTarget none "IMU-STACK" ⟨some "imu-stack", none, "AA"⟩ = true ∧
    specMatchesTarget none "IMU-STACK" ⟨some "imu-stack", none, "AA"⟩ = false := by
  decide

/-- C7 amended: when the target specifies a hardware address, a peripheral
matches exactly when its id equals the address directly or lowercased, and
name matching is disabled entirely (so a name-matching peripheral is never
selected on an address mismatch); with no target address, the peripheral
matches exactly when `name || localName || ""` (primary name, falling back
to the local name only when the primary is absent or empty) equals the
target name directly or lowercased — i.e. up to ASCII case, not
case-sensitively. -/
theorem discovery_match_characterization :
    (∀ (mac tn : String) (d : DiscoveredPeripheral),
      matchesTarget (some mac) tn d =
        (d.id == mac || lowerAscii d.id == lowerAscii mac)) ∧
    (∀ (tn : String) (d : DiscoveredPeripheral),
      matchesTarget none tn d =
        (deviceDisplayName d == tn ||
          lowerAscii (deviceDisplayName d) == lowerAscii tn)) ∧
    (∀ (mac tn : String) (d : DiscoveredPeripheral), matchesName (some mac) tn d = false) := by
  refine ⟨?_, ?_, ?_⟩
  · intro mac tn d
    unfold matchesTarget matchesMac matchesName
    simp
  · intro tn d
    unfold matchesTarget matchesMac matchesName
    simp
  · intro mac tn d
    rfl

/-- C6: the handoff store has read-and-clear semantics — consuming a
published record returns it and clears the slot, a second consecutive
consume returns nothing, consuming an empty store returns nothing, and the
single slot is last-write-wins (publishing over a pending record replaces
it, so at most one handoff is ever pending). -/
theorem handoff_consume_once :
    (∀ (d : DeviceHandle) (m : ManagerHandle) (mach sn sm : String)
        (s : BleConnectionState),
      consumePreConnected (setPreConnected d m mach sn sm s) =
        (some (d, m), emptyConnectionState)) ∧
    (∀ s : BleConnectionState, (consumePreConnected (consumePreConnected s).2).1 = none) ∧
    consumePreConnected emptyConnectionState = (none, emptyConnectionState) ∧
    (∀ (d : DeviceHandle) (m : ManagerHandle) (mach sn sm : String)
        (d2 : DeviceHandle) (m2 : ManagerHandle) (mach2 sn2 sm2 : String)
        (s : BleConnectionState),
      setPreConnected d2 m2 mach2 sn2 sm2 (setPreConnected d m mach sn sm s) =
        setPreConnected d2 m2 mach2 sn2 sm2 s) := by
  refine ⟨fun d m mach sn sm s => rfl, ?_, rfl, fun _ _ _ _ _ _ _ _ _ _ _ => rfl⟩
  intro s
  unfold consumePreConnected
  rcases hd : s.device with _ | d
  · simp [hd]
  · rcases hm : s.manager with _ | m
    · simp [hd, hm]
    · simp [hd, hm, emptyConnectionState]

end GymSensor
